import Mathlib

/-!
Verification of the project-collaboration backend.

This file shallowly embeds the data model and the CRUD layer of the
repository (the `app` package and, where a claim needs it, the legacy
`main` module) and proves the claims about them.

Conventions of the embedding:
* the relational store is a `DB` record of lists of rows, translated from
  the SQLAlchemy models in `app/models/project.py`;
* an operation that can raise `HTTPException(status, detail)` returns
  `Except CrudError _`; an unhandled Python exception (attribute access on
  `None`) is the separate error `CrudError.pyNone`;
* the S3 client is a list of `(bucket, key)` pairs plus a fault oracle
  saying which calls raise inside the storage adapter (`app/db/buckets.py`
  swallows every exception and turns it into `None` / `False`);
* bcrypt verification and JWT decoding are oracles passed as arguments;
* wall-clock time is a `Nat` counting minutes.
-/

deriving instance DecidableEq for Except

namespace App

/-- Row of the `users` table (`app/models/project.py`, class `User`). -/
structure User where
  user_id : Nat
  email : String
  hashed_password : String
deriving DecidableEq, Repr

/-- Row of the `projects` table (`app/models/project.py`, class `Project`).
`owner_id` and `logo_id` are nullable columns. -/
structure Project where
  project_id : Nat
  owner_id : Option Nat
  name : String
  description : String
  logo_id : Option Nat
deriving DecidableEq, Repr

/-- Row of the `images` table (`app/models/project.py`, class `Image`). -/
structure Image where
  image_id : Nat
  s3_key : String
  image_name : String
deriving DecidableEq, Repr

/-- Row of the `documents` table (`app/models/project.py`, class `Document`). -/
structure Document where
  document_id : Nat
  document_name : String
  s3_key : String
  project_id : Nat
deriving DecidableEq, Repr

/-- The relational database: one list of rows per table.  A membership row
of the `participant_project` association table is the pair
`(project_id, user_id)`, in the column order of the table definition. -/
structure DB where
  users : List User
  projects : List Project
  images : List Image
  documents : List Document
  memberships : List (Nat × Nat)
deriving DecidableEq, Repr

/-- Outcome of a failing CRUD call: a raised
`HTTPException(status_code, detail)`; an unhandled Python error from
attribute access on `None` (`pyNone`); or an unhandled database
`IntegrityError` raised at commit when an INSERT violates a unique
constraint (`integrity`) — `images.s3_key` is declared `unique=True` in
`app/models/project.py`. -/
inductive CrudError where
  | http (status : Nat) (detail : String)
  | pyNone
  | integrity
deriving DecidableEq, Repr

/-- `db.get(Project, project_id)`: primary-key lookup. -/
def DB.findProject (db : DB) (project_id : Nat) : Option Project :=
  db.projects.find? (fun p => p.project_id == project_id)

/-- `select(User).filter(User.email == email)` followed by `.scalar()`. -/
def DB.findUserByEmail (db : DB) (email : String) : Option User :=
  db.users.find? (fun u => u.email == email)

/-- `select(User).filter(User.user_id == owner_id)` with a nullable
`owner_id`: a `NULL` comparison matches no row. -/
def DB.findUserById (db : DB) (owner_id : Option Nat) : Option User :=
  db.users.find? (fun u => owner_id == some u.user_id)

/-- `is_participant(user_id, project_id, session)` from
`app/crud/project.py`: true iff a `participant_project` row exists for
exactly this `(user_id, project_id)` pair. -/
def is_participant (user_id : Nat) (project_id : Nat) (db : DB) : Bool :=
  db.memberships.any (fun m => m.2 == user_id && m.1 == project_id)

/-- `get_project(db, project_id, user_obj)` from `app/crud/project.py`:
404 when the primary-key lookup finds nothing; the project when the
requester's id equals the (nullable) `owner_id` or the requester is a
participant; 403 otherwise. -/
def get_project (db : DB) (project_id : Nat) (user_obj : User) :
    Except CrudError Project :=
  match db.findProject project_id with
  | none => .error (.http 404 "Project not found")
  | some db_project =>
    if db_project.owner_id == some user_obj.user_id
        || is_participant user_obj.user_id project_id db then
      .ok db_project
    else
      .error (.http 403 "User is not authorized for this project")

/-- Case lemma: `get_project` raises 404 when the lookup finds nothing. -/
theorem get_project_of_none (db : DB) (project_id : Nat) (user_obj : User)
    (h : db.findProject project_id = none) :
    get_project db project_id user_obj =
      .error (.http 404 "Project not found") := by
  simp [get_project, h]

/-- Case lemma: `get_project` returns the row for an owner or a
participant. -/
theorem get_project_of_auth (db : DB) (project_id : Nat) (user_obj : User)
    (p : Project) (hp : db.findProject project_id = some p)
    (hauth : p.owner_id = some user_obj.user_id ∨
      is_participant user_obj.user_id project_id db = true) :
    get_project db project_id user_obj = .ok p := by
  rcases hauth with h | h
  · simp [get_project, hp, h]
  · simp [get_project, hp, h]

/-- Case lemma: `get_project` raises 403 for a non-owner
non-participant. -/
theorem get_project_of_unauth (db : DB) (project_id : Nat)
    (user_obj : User) (p : Project)
    (hp : db.findProject project_id = some p)
    (hown : p.owner_id ≠ some user_obj.user_id)
    (hpart : is_participant user_obj.user_id project_id db = false) :
    get_project db project_id user_obj =
      .error (.http 403 "User is not authorized for this project") := by
  simp [get_project, hp, hpart]
  intro hcontra
  exact absurd hcontra hown

/-- C1: `get_project` fails with 404 when no project with the given id
exists, returns the project when the requester is the owner or a
participant (a membership row exists for that user and project), and
fails with 403 otherwise. -/
theorem get_project_spec (db : DB) (project_id : Nat) (user_obj : User) :
    (db.findProject project_id = none →
      get_project db project_id user_obj =
        .error (.http 404 "Project not found")) ∧
    (∀ p, db.findProject project_id = some p →
      (p.owner_id = some user_obj.user_id ∨
        is_participant user_obj.user_id project_id db = true) →
      get_project db project_id user_obj = .ok p) ∧
    (∀ p, db.findProject project_id = some p →
      p.owner_id ≠ some user_obj.user_id →
      is_participant user_obj.user_id project_id db = false →
      get_project db project_id user_obj =
        .error (.http 403 "User is not authorized for this project")) :=
  ⟨get_project_of_none db project_id user_obj,
   fun p => get_project_of_auth db project_id user_obj p,
   fun p => get_project_of_unauth db project_id user_obj p⟩

/-- Witness for C1: a concrete database exercising all three branches of
`get_project_spec`. -/
theorem get_project_spec_witness :
    let alice : User := ⟨1, "alice@x.io", "h1"⟩
    let bob : User := ⟨2, "bob@x.io", "h2"⟩
    let carol : User := ⟨3, "carol@x.io", "h3"⟩
    let proj : Project := ⟨10, some 1, "p", "d", none⟩
    let db : DB := ⟨[alice, bob, carol], [proj], [], [], [(10, 2)]⟩
    get_project db 99 alice = .error (.http 404 "Project not found") ∧
    get_project db 10 alice = .ok proj ∧
    get_project db 10 bob = .ok proj ∧
    get_project db 10 carol =
      .error (.http 403 "User is not authorized for this project") := by
  intro alice bob carol proj db
  have h₁ := (get_project_spec db 99 alice).1 (by decide)
  have h₂ := (get_project_spec db 10 alice).2.1 proj (by decide)
    (Or.inl (by decide))
  have h₃ := (get_project_spec db 10 bob).2.1 proj (by decide)
    (Or.inr (by decide))
  have h₄ := (get_project_spec db 10 carol).2.2 proj (by decide)
    (by decide) (by decide)
  exact ⟨h₁, h₂, h₃, h₄⟩

/-- Effect of `db.delete(db_project)` together with the configured ORM
cascades (`app/models/project.py`): the project row goes away, its
documents (`cascade="all, delete-orphan"`), its logo image row
(`cascade="all"` on the `logo` relationship) and its
`participant_project` association rows are deleted with it. -/
def cascadeDeleteProject (db : DB) (p : Project) : DB :=
  { db with
    projects := db.projects.filter (fun q => q.project_id != p.project_id),
    documents := db.documents.filter (fun d => d.project_id != p.project_id),
    images := db.images.filter (fun i => p.logo_id != some i.image_id),
    memberships := db.memberships.filter (fun m => m.1 != p.project_id) }

/-- `delete_project(db, project_id, user_obj)` from `app/crud/project.py`:
authorizes through `get_project`, then deletes only when the requester is
the owner, raising 403 otherwise. -/
def delete_project (db : DB) (project_id : Nat) (user_obj : User) :
    Except CrudError (DB × String) :=
  match get_project db project_id user_obj with
  | .error e => .error e
  | .ok db_project =>
    if db_project.owner_id == some user_obj.user_id then
      .ok (cascadeDeleteProject db db_project, "Project deleted successfully")
    else
      .error (.http 403 "User is not authorized for this project")

/-- After the cascade delete, a primary-key lookup of the deleted project
finds nothing. -/
theorem findProject_cascadeDeleteProject_self (db : DB) (p : Project) :
    (cascadeDeleteProject db p).findProject p.project_id = none := by
  rw [DB.findProject, List.find?_eq_none]
  intro q hq
  rcases List.mem_filter.mp hq with ⟨-, hkeep⟩
  simpa using hkeep

/-- C2: for an existing project and a requester authorized to read it,
`delete_project` succeeds exactly when the requester is the owner
(removing the project row), fails with 403 for a non-owner participant,
and after a successful delete any subsequent `get_project` of the same id
fails with 404. -/
theorem delete_project_spec (db : DB) (project_id : Nat) (user_obj : User)
    (p : Project) (hp : db.findProject project_id = some p)
    (hauth : p.owner_id = some user_obj.user_id ∨
      is_participant user_obj.user_id project_id db = true) :
    (p.owner_id = some user_obj.user_id →
      delete_project db project_id user_obj =
        .ok (cascadeDeleteProject db p, "Project deleted successfully") ∧
      ∀ v : User, get_project (cascadeDeleteProject db p) project_id v =
        .error (.http 404 "Project not found")) ∧
    (p.owner_id ≠ some user_obj.user_id →
      delete_project db project_id user_obj =
        .error (.http 403 "User is not authorized for this project")) ∧
    (∀ db' msg, delete_project db project_id user_obj = .ok (db', msg) →
      p.owner_id = some user_obj.user_id) := by
  have hget : get_project db project_id user_obj = .ok p :=
    get_project_of_auth db project_id user_obj p hp hauth
  have hpid : p.project_id = project_id := by
    have := List.find?_some hp
    simpa using this
  refine ⟨fun hown => ⟨?_, fun v => ?_⟩, fun hown => ?_, fun db' msg hok => ?_⟩
  · simp [delete_project, hget, hown]
  · have hnone : (cascadeDeleteProject db p).findProject project_id = none := by
      rw [← hpid]
      exact findProject_cascadeDeleteProject_self db p
    exact get_project_of_none (cascadeDeleteProject db p) project_id v hnone
  · simp [delete_project, hget]
    intro hcontra
    exact absurd hcontra hown
  · by_cases hown : p.owner_id = some user_obj.user_id
    · exact hown
    · simp [delete_project, hget, hown] at hok

/-- Witness for C2: owner delete succeeds and the project is gone; a
non-owner participant gets 403. -/
theorem delete_project_spec_witness :
    let alice : User := ⟨1, "alice@x.io", "h1"⟩
    let bob : User := ⟨2, "bob@x.io", "h2"⟩
    let proj : Project := ⟨10, some 1, "p", "d", none⟩
    let db : DB := ⟨[alice, bob], [proj], [], [], [(10, 2)]⟩
    delete_project db 10 alice =
      .ok (cascadeDeleteProject db proj, "Project deleted successfully") ∧
    get_project (cascadeDeleteProject db proj) 10 bob =
      .error (.http 404 "Project not found") ∧
    delete_project db 10 bob =
      .error (.http 403 "User is not authorized for this project") := by
  intro alice bob proj db
  have howner := (delete_project_spec db 10 alice proj (by decide)
    (Or.inl (by decide))).1 (by decide)
  have hpart := (delete_project_spec db 10 bob proj (by decide)
    (Or.inr (by decide))).2.1 (by decide)
  exact ⟨howner.1, howner.2 bob, hpart⟩

/-- `invite(db, user_email, user_obj, project_id)` from
`app/crud/project.py`: authorizes the inviter through `get_project`,
re-derives the owner by `owner_id` and requires the inviter's email to
equal the owner's (403 otherwise), looks up the invitee by email (404 if
absent), rejects an existing participant (400), and otherwise inserts one
`participant_project` row.  When the owner lookup returns no row the
source dereferences `None` (`owner.email`), an unhandled Python error. -/
def invite (db : DB) (user_email : String) (user_obj : User)
    (project_id : Nat) : Except CrudError (DB × String) :=
  match get_project db project_id user_obj with
  | .error e => .error e
  | .ok project =>
    match db.findUserById project.owner_id with
    | none => .error .pyNone
    | some owner =>
      if owner.email != user_obj.email then
        .error (.http 403 "Only the project owner can invite users")
      else
        match db.findUserByEmail user_email with
        | none => .error (.http 404 "Invited user doesn\x27t exist")
        | some invited_user_obj =>
          if is_participant invited_user_obj.user_id project_id db then
            .error (.http 400 "User is already participating in the project")
          else
            .ok ({ db with memberships :=
                     db.memberships ++ [(project_id, invited_user_obj.user_id)] },
                 "Participant added to project successfully")

/-- C4: in a well-formed database (unique user ids and emails, inviter
present), for an existing project whose owner row resolves: the invite
fails with 403 whenever the inviter's email differs from the owner's,
fails with 404 when no user has the invitee email, fails with 400 when the
invitee already participates, and otherwise appends exactly one membership
row — after which inviting the same email again fails with 400. -/
theorem invite_spec (db : DB) (invitee_email : String) (user_obj : User)
    (project_id : Nat) (p : Project) (owner : User)
    (hids : (db.users.map User.user_id).Nodup)
    (hemails : (db.users.map User.email).Nodup)
    (hmem : user_obj ∈ db.users)
    (hp : db.findProject project_id = some p)
    (howner : db.findUserById p.owner_id = some owner) :
    (owner.email ≠ user_obj.email →
      ∃ detail, invite db invitee_email user_obj project_id =
        .error (.http 403 detail)) ∧
    (owner.email = user_obj.email →
      (db.findUserByEmail invitee_email = none →
        invite db invitee_email user_obj project_id =
          .error (.http 404 "Invited user doesn\x27t exist")) ∧
      (∀ invited, db.findUserByEmail invitee_email = some invited →
        (is_participant invited.user_id project_id db = true →
          invite db invitee_email user_obj project_id =
            .error
              (.http 400 "User is already participating in the project")) ∧
        (is_participant invited.user_id project_id db = false →
          invite db invitee_email user_obj project_id =
            .ok ({ db with memberships :=
                     db.memberships ++ [(project_id, invited.user_id)] },
                 "Participant added to project successfully") ∧
          invite { db with memberships :=
                     db.memberships ++ [(project_id, invited.user_id)] }
              invitee_email user_obj project_id =
            .error
              (.http 400 "User is already participating in the project")))) := by
  have howner_mem : owner ∈ db.users := List.mem_of_find?_eq_some howner
  have howner_id : p.owner_id = some owner.user_id := by
    have := List.find?_some howner
    simpa using this
  constructor
  · intro hneq
    have hnotown : p.owner_id ≠ some user_obj.user_id := by
      intro hcontra
      rw [howner_id] at hcontra
      have hid : owner.user_id = user_obj.user_id := by
        exact Option.some.inj hcontra
      have : owner = user_obj :=
        List.inj_on_of_nodup_map hids howner_mem hmem hid
      exact hneq (by rw [this])
    by_cases hpart : is_participant user_obj.user_id project_id db = true
    · have hget : get_project db project_id user_obj = .ok p :=
        get_project_of_auth db project_id user_obj p hp (Or.inr hpart)
      refine ⟨"Only the project owner can invite users", ?_⟩
      simp [invite, hget, howner, hneq]
    · have hget : get_project db project_id user_obj =
          .error (.http 403 "User is not authorized for this project") :=
        get_project_of_unauth db project_id user_obj p hp hnotown
          (by simpa using hpart)
      refine ⟨"User is not authorized for this project", ?_⟩
      simp [invite, hget]
  · intro heq
    have howner_eq : owner = user_obj :=
      List.inj_on_of_nodup_map hemails howner_mem hmem heq
    have hown_id : p.owner_id = some user_obj.user_id := by
      rw [howner_id, howner_eq]
    have hget : get_project db project_id user_obj = .ok p :=
      get_project_of_auth db project_id user_obj p hp (Or.inl hown_id)
    refine ⟨fun hnone => ?_, fun invited hfind => ⟨fun hpart => ?_, fun hpart => ?_⟩⟩
    · simp [invite, hget, howner, heq, hnone]
    · simp [invite, hget, howner, heq, hfind, hpart]
    · constructor
      · simp [invite, hget, howner, heq, hfind, hpart]
      · set db2 : DB := { db with memberships :=
          db.memberships ++ [(project_id, invited.user_id)] } with hdb2
        have hp2 : db2.findProject project_id = some p := hp
        have howner2 : db2.findUserById p.owner_id = some owner := howner
        have hfind2 : db2.findUserByEmail invitee_email = some invited := hfind
        have hget2 : get_project db2 project_id user_obj = .ok p := by
          simp [get_project, hp2, hown_id]
        have hpart2 : is_participant invited.user_id project_id db2 = true := by
          simp [is_participant, hdb2]
        simp [invite, hget2, howner2, heq, hfind2, hpart2]

/-- Witness for C4: a wrong inviter gets 403; the owner's first invite of
`bob@x.io` appends one membership row; the second identical invite fails
with 400; inviting an unknown email fails with 404. -/
theorem invite_spec_witness :
    let alice : User := ⟨1, "alice@x.io", "h1"⟩
    let bob : User := ⟨2, "bob@x.io", "h2"⟩
    let proj : Project := ⟨10, some 1, "p", "d", none⟩
    let db : DB := ⟨[alice, bob], [proj], [], [], []⟩
    let db2 : DB := ⟨[alice, bob], [proj], [], [], [(10, 2)]⟩
    (∃ detail, invite db "alice@x.io" bob 10 = .error (.http 403 detail)) ∧
    invite db "nobody@x.io" alice 10 =
      .error (.http 404 "Invited user doesn\x27t exist") ∧
    invite db "bob@x.io" alice 10 =
      .ok (db2, "Participant added to project successfully") ∧
    invite db2 "bob@x.io" alice 10 =
      .error (.http 400 "User is already participating in the project") := by
  intro alice bob proj db db2
  have h403 := (invite_spec db "alice@x.io" bob 10 proj alice (by decide)
    (by decide) (by simp [db]) (by decide) (by decide)).1 (by decide)
  have hrest := (invite_spec db "bob@x.io" alice 10 proj alice (by decide)
    (by decide) (by simp [db]) (by decide) (by decide)).2 (by decide)
  have h404 := ((invite_spec db "nobody@x.io" alice 10 proj alice (by decide)
    (by decide) (by simp [db]) (by decide) (by decide)).2 (by decide)).1
    (by decide)
  have hok := (hrest.2 bob (by decide)).2 (by decide)
  exact ⟨h403, h404, hok.1, hok.2⟩

/-- A registration request body as it reaches validation: each declared
field is present with a string value or absent. -/
structure RegistrationInput where
  email : Option String
  password : Option String
  repeat_password : Option String
deriving DecidableEq, Repr

/-- `UserAuth` from `app/schemas/user.py`: three plain `str` fields. -/
structure UserAuth where
  email : String
  password : String
  repeat_password : String
deriving DecidableEq, Repr

/-- Pydantic validation of `UserAuth` in `app/schemas/user.py`: the three
fields are required strings; the model declares no further constraint, so
validation only checks presence. -/
def validateUserAuth (inp : RegistrationInput) : Option UserAuth :=
  match inp.email, inp.password, inp.repeat_password with
  | some e, some pw, some rp => some ⟨e, pw, rp⟩
  | _, _, _ => none

namespace Legacy

/-- Pydantic validation of `UserAuth` in `main/schemas.py`: field for
field the same declaration as the `app` variant — three required plain
`str` fields, again with no length constraint. -/
def validateUserAuth (inp : RegistrationInput) : Option UserAuth :=
  match inp.email, inp.password, inp.repeat_password with
  | some e, some pw, some rp => some ⟨e, pw, rp⟩
  | _, _, _ => none

end Legacy

/-- Counterexample to C5: both `UserAuth` schema variants accept a
3-character password and a 25-character password on fully-populated
inputs — no variant rejects a password shorter than 5 or longer than 24
characters. -/
theorem password_length_unconstrained_counterexample :
    validateUserAuth ⟨some "a@b.io", some "abc", some "abc"⟩ =
      some ⟨"a@b.io", "abc", "abc"⟩ ∧
    Legacy.validateUserAuth ⟨some "a@b.io", some "abc", some "abc"⟩ =
      some ⟨"a@b.io", "abc", "abc"⟩ ∧
    "abc".length = 3 ∧
    validateUserAuth
        ⟨some "a@b.io", some "ppppppppppppppppppppppp| pp",
          some "ppppppppppppppppppppppp| pp"⟩ =
      some ⟨"a@b.io", "ppppppppppppppppppppppp| pp",
        "ppppppppppppppppppppppp| pp"⟩ ∧
    24 < "ppppppppppppppppppppppp| pp".length := by
  refine ⟨rfl, rfl, rfl, rfl, by decide⟩

/-- C5 (amended): neither registration schema variant constrains the
password length — validation of `UserAuth` succeeds on every input with
all three fields present, whatever the password's length, and the two
variants are identical functions. -/
theorem password_length_unconstrained (e pw rp : String)
    (inp : RegistrationInput) :
    validateUserAuth ⟨some e, some pw, some rp⟩ = some ⟨e, pw, rp⟩ ∧
    Legacy.validateUserAuth ⟨some e, some pw, some rp⟩ = some ⟨e, pw, rp⟩ ∧
    validateUserAuth inp = Legacy.validateUserAuth inp := by
  refine ⟨rfl, rfl, ?_⟩
  cases inp with
  | mk e? pw? rp? =>
    cases e? <;> cases pw? <;> cases rp? <;> rfl

/-- A signed JWT as handed to `jose.jwt.encode(to_encode, key, alg)`:
the two payload claims, the signing key and the algorithm name.  Time is
counted in minutes since an arbitrary epoch. -/
structure EncodedJwt where
  sub : String
  exp : Nat
  key : Option String
  alg : String
deriving DecidableEq, Repr

/-- `ACCESS_TOKEN_EXPIRE_MINUTES` in `app/core/jwt.py`. -/
def ACCESS_TOKEN_EXPIRE_MINUTES : Nat := 60

/-- `create_access_token(subject)` from `app/core/jwt.py`, as the
repository invokes it (no `expires_delta` argument): payload
`{exp: now + 60 minutes, sub: str(subject)}`, signed with HS256 under the
secret read from the environment variable `JWT_SECRET_KEY`. -/
def create_access_token (jwt_secret_key : Option String) (now : Nat)
    (subject : String) : EncodedJwt :=
  { sub := subject,
    exp := now + ACCESS_TOKEN_EXPIRE_MINUTES,
    key := jwt_secret_key,
    alg := "HS256" }

namespace Legacy

/-- `ACCESS_TOKEN_EXPIRE_MINUTES` in `main/utilis.py` — 30, not 60. -/
def ACCESS_TOKEN_EXPIRE_MINUTES : Nat := 30

/-- `create_access_token(subject)` from `main/utilis.py`, invoked without
`expires_delta`: payload `{exp: now + 30 minutes, sub: str(subject)}`,
signed with HS256 under `JWT_SECRET_KEY`. -/
def create_access_token (jwt_secret_key : Option String) (now : Nat)
    (subject : String) : EncodedJwt :=
  { sub := subject,
    exp := now + ACCESS_TOKEN_EXPIRE_MINUTES,
    key := jwt_secret_key,
    alg := "HS256" }

end Legacy

/-- Counterexample to C6: the legacy `main`-module `create_access_token`
does not put `now + 60 minutes` into `exp` — at `now = 0` it produces an
expiry of 30 minutes. -/
theorem legacy_access_token_expiry_counterexample :
    (Legacy.create_access_token (some "secret") 0 "a@b.io").exp = 30 ∧
    (Legacy.create_access_token (some "secret") 0 "a@b.io").exp ≠ 0 + 60 := by
  exact ⟨rfl, by decide⟩

/-- C6 (amended): without an expiry delta, the modular
`create_access_token` issues `{sub: subject, exp: now + 60 minutes}` and
the legacy `main`-module variant issues `{sub: subject, exp: now + 30
minutes}`, both signed with HS256 under the `JWT_SECRET_KEY` secret. -/
theorem create_access_token_spec (key : Option String) (now : Nat)
    (subject : String) :
    create_access_token key now subject =
      { sub := subject, exp := now + 60, key := key, alg := "HS256" } ∧
    Legacy.create_access_token key now subject =
      { sub := subject, exp := now + 30, key := key, alg := "HS256" } := by
  exact ⟨rfl, rfl⟩

/-- The object store: the stored `(bucket, key)` pairs. -/
structure S3State where
  objects : List (String × String)
deriving DecidableEq, Repr

/-- Fault oracle: which storage-client calls raise.  `app/db/buckets.py`
catches every exception indiscriminately, so a raised call surfaces to
callers only as `None` (upload/download) or `False` (delete). -/
structure S3Faults where
  uploadFails : String → String → Bool
  deleteFails : String → String → Bool
  downloadFails : String → String → Bool

/-- Bucket names from `app/core/config.py` (environment variables
`S3_BUCKET_1`..`S3_BUCKET_3`): documents, logo originals, resized
logos. -/
structure Env where
  bucket_name : String
  bucket_name_logos : String
  bucket_resize : String
deriving DecidableEq, Repr

/-- Python `s.split(".")[0]`: the text of `s` before the first `.`
(the whole string when `s` has no dot). -/
def splitFirstDot (s : String) : String :=
  ⟨s.data.takeWhile (fun c => c != '.')⟩

/-- `upload_to_s3(file, bucket_name, s3_key, doc_type)` from
`app/db/buckets.py`: the key defaults to the file's own name; a raising
`upload_fileobj` is swallowed and yields `None`; on success the blob is
stored under the (pre-derivation) key and the function returns the key —
except for `doc_type == "image"`, where it returns
`s3_key.split(".")[0] + "-resized.jpg"` instead. -/
def upload_to_s3 (f : S3Faults) (s3 : S3State) (file_filename : String)
    (bucket_name : String) (s3_key : Option String)
    (doc_type : Option String) : S3State × Option String :=
  let key := s3_key.getD file_filename
  if f.uploadFails bucket_name key then
    (s3, none)
  else
    let s3' : S3State :=
      ⟨(bucket_name, key) ::
        s3.objects.filter (fun o => o != (bucket_name, key))⟩
    if doc_type == some "image" then
      (s3', some (splitFirstDot key ++ "-resized.jpg"))
    else
      (s3', some key)

/-- `delete_from_s3(bucket_name, s3_key)` from `app/db/buckets.py`: a
raising `delete_object` is swallowed and yields `False`; otherwise the
blob (if present) is removed and the call returns `True`. -/
def delete_from_s3 (f : S3Faults) (s3 : S3State) (bucket_name : String)
    (s3_key : String) : S3State × Bool :=
  if f.deleteFails bucket_name s3_key then
    (s3, false)
  else
    (⟨s3.objects.filter (fun o => o != (bucket_name, s3_key))⟩, true)

/-- C7: `upload_to_s3` returns the given key on success (the file's own
name when no key is given), except that for `doc_type = "image"` it
returns the text of the key before the first `.` with `-resized.jpg`
appended; and it returns `none` instead of raising whenever the storage
call fails. -/
theorem upload_to_s3_spec (f : S3Faults) (s3 : S3State)
    (file_filename bucket_name : String) (s3_key : Option String)
    (doc_type : Option String) :
    (f.uploadFails bucket_name (s3_key.getD file_filename) = true →
      (upload_to_s3 f s3 file_filename bucket_name s3_key doc_type).2 =
        none) ∧
    (f.uploadFails bucket_name (s3_key.getD file_filename) = false →
      (doc_type = some "image" →
        (upload_to_s3 f s3 file_filename bucket_name s3_key doc_type).2 =
          some (splitFirstDot (s3_key.getD file_filename) ++
            "-resized.jpg")) ∧
      (doc_type ≠ some "image" →
        (upload_to_s3 f s3 file_filename bucket_name s3_key doc_type).2 =
          some (s3_key.getD file_filename))) := by
  refine ⟨fun hfail => ?_, fun hok => ⟨fun himg => ?_, fun hother => ?_⟩⟩
  · simp [upload_to_s3, hfail]
  · simp [upload_to_s3, hok, himg]
  · have : (doc_type == some "image") = false := by
      cases hdt : doc_type == some "image"
      · rfl
      · exact absurd (by simpa using hdt) hother
    simp [upload_to_s3, hok, this]

/-- Witness for C7: concrete uploads — an explicit key is echoed back, a
missing key falls back to the filename, the image kind derives
`1/logo-resized.jpg` from `1/logo.png` (text before the *first* dot:
`a.b.c` gives `a-resized.jpg`), and a faulting upload returns `none`. -/
theorem upload_to_s3_spec_witness :
    let ok : S3Faults :=
      ⟨fun _ _ => false, fun _ _ => false, fun _ _ => false⟩
    let bad : S3Faults :=
      ⟨fun _ _ => true, fun _ _ => false, fun _ _ => false⟩
    let s0 : S3State := ⟨[]⟩
    (upload_to_s3 ok s0 "f.txt" "docs" (some "7/f.txt") none).2 =
      some "7/f.txt" ∧
    (upload_to_s3 ok s0 "f.txt" "docs" none none).2 = some "f.txt" ∧
    (upload_to_s3 ok s0 "logo.png" "logos" (some "1/logo.png")
      (some "image")).2 = some "1/logo-resized.jpg" ∧
    (upload_to_s3 ok s0 "a.b.c" "logos" (some "a.b.c")
      (some "image")).2 = some "a-resized.jpg" ∧
    (upload_to_s3 bad s0 "f.txt" "docs" (some "7/f.txt") none).2 = none := by
  intro ok bad s0
  refine ⟨?_, ?_, ?_, ?_, ?_⟩
  · exact ((upload_to_s3_spec ok s0 "f.txt" "docs" (some "7/f.txt")
      none).2 (by decide)).2 (by decide)
  · exact ((upload_to_s3_spec ok s0 "f.txt" "docs" none
      none).2 (by decide)).2 (by decide)
  · exact ((upload_to_s3_spec ok s0 "logo.png" "logos" (some "1/logo.png")
      (some "image")).2 (by decide)).1 (by decide)
  · exact ((upload_to_s3_spec ok s0 "a.b.c" "logos" (some "a.b.c")
      (some "image")).2 (by decide)).1 (by decide)
  · exact (upload_to_s3_spec bad s0 "f.txt" "docs" (some "7/f.txt")
      none).1 (by decide)

/-- `delete_images_from_s3(target)` from `app/crud/project.py`, the
`after_delete` lifecycle hook registered on `Project`: when the deleted
project carries a logo it issues `delete_from_s3(BUCKET_NAME_LOGOS,
target.logo.s3_key)` and `delete_from_s3(BUCKET_RESIZE,
target.logo.s3_key)` — the same key, `s3_key`, in both buckets.  The
`logo` relationship resolves to the Image row the project's `logo_id`
references (`none` when the project has no logo). -/
def delete_images_from_s3 (env : Env) (f : S3Faults) (s3 : S3State)
    (target_logo : Option Image) : S3State :=
  match target_logo with
  | none => s3
  | some logo =>
    let r₁ := delete_from_s3 f s3 env.bucket_name_logos logo.s3_key
    let r₂ := delete_from_s3 f r₁.1 env.bucket_resize logo.s3_key
    r₂.1

/-- C3 (code bug): for project 1 with logo file `logo.png`, the upload
path stores the original under key `1/logo.png` in the logo-originals
bucket and records the derived key `1/logo-resized.jpg` as the Image
row's `s3_key`; the after-delete hook then deletes `s3_key` from both
buckets, so the resized blob disappears but the original blob in the
logo-originals bucket survives the hook untouched. -/
theorem delete_images_hook_misses_original :
    let env : Env := ⟨"documents-bucket", "logos-bucket", "resize-bucket"⟩
    let ok : S3Faults :=
      ⟨fun _ _ => false, fun _ _ => false, fun _ _ => false⟩
    let up := upload_to_s3 ok ⟨[]⟩ "logo.png" env.bucket_name_logos
      (some "1/logo.png") (some "image")
    up.2 = some "1/logo-resized.jpg" ∧
    up.1.objects = [("logos-bucket", "1/logo.png")] ∧
    (let s3 : S3State :=
      ⟨("resize-bucket", "1/logo-resized.jpg") :: up.1.objects⟩
    let logo : Image := ⟨5, "1/logo-resized.jpg", "logo.png"⟩
    let after := delete_images_from_s3 env ok s3 (some logo)
    ("logos-bucket", "1/logo.png") ∈ after.objects ∧
    ("resize-bucket", "1/logo-resized.jpg") ∉ after.objects) := by
  decide

/-- `LogoOut` from `app/schemas/image.py`: the upload-logo response. -/
structure LogoOut where
  image_id : Nat
  image_name : String
deriving DecidableEq, Repr

/-- `get_image(db, image_id)` from `app/crud/project.py`:
`select(Image).where(Image.image_id == image_id)` — a `NULL` id matches
no row — with 404 when nothing is found. -/
def get_image (db : DB) (image_id : Option Nat) : Except CrudError Image :=
  match db.images.find? (fun i => image_id == some i.image_id) with
  | none => .error (.http 404 "Image not found")
  | some db_image => .ok db_image

/-- `delete_logo(project_id, db, user_obj)` from `app/crud/project.py`:
authorizes via `get_project`, loads the Image via `get_image`, deletes
the original under the reconstructed key `"{project_id}/{image_name}"`
from the logo-originals bucket and the stored `s3_key` from the resize
bucket; unless both deletions report success it raises 500 (leaving the
Image row in place — rows are touched only after both deletes); on
success it deletes the Image row.  The triple returned is (object store,
database, outcome); the store keeps any partial deletion even on the
error path, as the real S3 calls already happened. -/
def delete_logo (env : Env) (f : S3Faults) (s3 : S3State) (db : DB)
    (project_id : Nat) (user_obj : User) :
    S3State × DB × Except CrudError String :=
  match get_project db project_id user_obj with
  | .error e => (s3, db, .error e)
  | .ok project =>
    match get_image db project.logo_id with
    | .error e => (s3, db, .error e)
    | .ok logo =>
      let r₁ := delete_from_s3 f s3 env.bucket_name_logos
        (toString project_id ++ "/" ++ logo.image_name)
      let r₂ := delete_from_s3 f r₁.1 env.bucket_resize logo.s3_key
      if !(r₁.2 && r₂.2) then
        (r₂.1, db, .error (.http 500 "Failed to delete logo from S3"))
      else
        (r₂.1,
         { db with images :=
             db.images.filter (fun i => i.image_id != logo.image_id) },
         .ok "Logo deleted successfully")

/-- `upload_logo(project_id, file, user_obj, db)` from
`app/crud/project.py`: authorizes via `get_project`; if `get_image` finds
an existing logo it calls `delete_logo`, and the surrounding
`try/except HTTPException: pass` swallows every `HTTPException` raised by
either call (`get_image` and `delete_logo` raise only `HTTPException`s);
then uploads the new file to the logo-originals bucket under
`"{project_id}/{filename}"` with `doc_type="image"`, raises 500 when the
upload reports failure, and otherwise inserts a new Image row holding
the derived resized key, linked to the project (the relationship
assignment points the project's `logo_id` at the new row).  The
`images.s3_key` column is `unique=True`, so when the derived key equals
the `s3_key` of a row still in the table the commit of that insert
raises an unhandled `IntegrityError` and the transaction rolls back with
no row persisted.  `new_image_id` stands for the primary key the
database generates. -/
def upload_logo (env : Env) (f : S3Faults) (s3 : S3State) (db : DB)
    (project_id : Nat) (file_filename : String) (new_image_id : Nat)
    (user_obj : User) : S3State × DB × Except CrudError LogoOut :=
  match get_project db project_id user_obj with
  | .error e => (s3, db, .error e)
  | .ok project =>
    let cleaned : S3State × DB :=
      match get_image db project.logo_id with
      | .error _ => (s3, db)
      | .ok _ =>
        let r := delete_logo env f s3 db project_id user_obj
        (r.1, r.2.1)
    let upl := upload_to_s3 f cleaned.1 file_filename env.bucket_name_logos
      (some (toString project_id ++ "/" ++ file_filename)) (some "image")
    match upl.2 with
    | none => (upl.1, cleaned.2, .error (.http 500 "Failed to upload logo to S3"))
    | some s3_key =>
      if cleaned.2.images.any (fun i => i.s3_key == s3_key) then
        (upl.1, cleaned.2, .error .integrity)
      else
        let logo : Image := ⟨new_image_id, s3_key, file_filename⟩
        (upl.1,
         { cleaned.2 with
             projects := cleaned.2.projects.map (fun p =>
               if p.project_id == project_id then
                 { p with logo_id := some new_image_id }
               else p),
             images := cleaned.2.images ++ [logo] },
         .ok ⟨new_image_id, file_filename⟩)

/-- On every error path `delete_logo` leaves the database untouched. -/
theorem delete_logo_error_db (env : Env) (f : S3Faults) (s3 : S3State)
    (db : DB) (project_id : Nat) (user_obj : User) (e : CrudError)
    (h : (delete_logo env f s3 db project_id user_obj).2.2 = .error e) :
    (delete_logo env f s3 db project_id user_obj).2.1 = db := by
  unfold delete_logo at h ⊢
  cases hget : get_project db project_id user_obj with
  | error e₁ => simp [hget]
  | ok project =>
    cases himg : get_image db project.logo_id with
    | error e₂ => simp [hget, himg]
    | ok logo =>
      simp only [hget, himg] at h ⊢
      by_cases hdel : (!((delete_from_s3 f s3 env.bucket_name_logos
          (toString project_id ++ "/" ++ logo.image_name)).2 &&
          (delete_from_s3 f (delete_from_s3 f s3 env.bucket_name_logos
            (toString project_id ++ "/" ++ logo.image_name)).1
            env.bucket_resize logo.s3_key).2)) = true
      · simp [hdel]
      · simp only [Bool.not_eq_true] at hdel
        simp [hdel] at h

/-- Counterexample to C9 as originally stated: project 10 already carries
logo `logo.png` (stale row `s3_key = "10/logo-resized.jpg"`), every S3
delete faults, and the owner re-uploads a file named `logo.png`.
`delete_logo` fails with the swallowed 500 storage error, the stale row
survives, and the new upload derives the very key `10/logo-resized.jpg`
that the surviving row still holds under the `images.s3_key` unique
constraint — so the insert raises `IntegrityError` instead of
succeeding, and no new Image row is persisted. -/
theorem upload_logo_collision_counterexample :
    let env : Env := ⟨"documents-bucket", "logos-bucket", "resize-bucket"⟩
    let f : S3Faults :=
      ⟨fun _ _ => false, fun _ _ => true, fun _ _ => false⟩
    let alice : User := ⟨1, "alice@x.io", "h1"⟩
    let old_logo : Image := ⟨5, "10/logo-resized.jpg", "logo.png"⟩
    let proj : Project := ⟨10, some 1, "p", "d", some 5⟩
    let db : DB := ⟨[alice], [proj], [old_logo], [], []⟩
    let s3 : S3State := ⟨[("logos-bucket", "10/logo.png"),
      ("resize-bucket", "10/logo-resized.jpg")]⟩
    (delete_logo env f s3 db 10 alice).2.2 =
      .error (.http 500 "Failed to delete logo from S3") ∧
    (upload_logo env f s3 db 10 "logo.png" 6 alice).2.2 =
      .error .integrity ∧
    (upload_logo env f s3 db 10 "logo.png" 6 alice).2.1.images =
      [old_logo] := by
  decide

/-- C9 (amended): when the project already has a logo and the internal
`delete_logo` fails with any `HTTPException` — in particular the 500
storage-failure error — `upload_logo` swallows the error and uploads the
new file; provided the derived resized key does not collide with the
`s3_key` of any surviving Image row (the column is unique), it inserts a
new Image row, and the old Image row is still in the database alongside
the new one.  (When the derived key equals the stale row's `s3_key`, as
on a same-stem re-upload, the insert instead raises `IntegrityError` —
see the collision counterexample.) -/
theorem upload_logo_swallows_delete_failure (env : Env) (f : S3Faults)
    (s3 : S3State) (db : DB) (project_id : Nat) (file_filename : String)
    (new_image_id : Nat) (user_obj : User) (p : Project) (old_logo : Image)
    (e : CrudError)
    (hget : get_project db project_id user_obj = .ok p)
    (himg : get_image db p.logo_id = .ok old_logo)
    (hfail : (delete_logo env f s3 db project_id user_obj).2.2 = .error e)
    (hup : f.uploadFails env.bucket_name_logos
      (toString project_id ++ "/" ++ file_filename) = false)
    (hkey : db.images.any (fun i => i.s3_key ==
      splitFirstDot (toString project_id ++ "/" ++ file_filename) ++
        "-resized.jpg") = false) :
    (upload_logo env f s3 db project_id file_filename new_image_id
        user_obj).2.2 = .ok ⟨new_image_id, file_filename⟩ ∧
    old_logo ∈ (upload_logo env f s3 db project_id file_filename
        new_image_id user_obj).2.1.images ∧
    Image.mk new_image_id
        (splitFirstDot (toString project_id ++ "/" ++ file_filename) ++
          "-resized.jpg") file_filename ∈
      (upload_logo env f s3 db project_id file_filename new_image_id
        user_obj).2.1.images := by
  have hdb : (delete_logo env f s3 db project_id user_obj).2.1 = db :=
    delete_logo_error_db env f s3 db project_id user_obj e hfail
  have hold_mem : old_logo ∈ db.images := by
    unfold get_image at himg
    cases hfind : db.images.find? (fun i => p.logo_id == some i.image_id) with
    | none => simp [hfind] at himg
    | some img =>
      simp [hfind] at himg
      exact himg ▸ List.mem_of_find?_eq_some hfind
  unfold upload_logo
  simp only [hget, himg, hdb]
  simp [upload_to_s3, hup, hkey, hold_mem]

/-- Witness for C9: a concrete replacement upload where every S3 delete
faults and the new filename's stem differs from the stale logo's (so the
derived key `10/new-resized.jpg` collides with no surviving row) —
`delete_logo` fails with the 500 storage error, `upload_logo` still
succeeds, and both the stale and the fresh Image rows are present
afterwards. -/
theorem upload_logo_swallows_delete_failure_witness :
    let env : Env := ⟨"documents-bucket", "logos-bucket", "resize-bucket"⟩
    let f : S3Faults :=
      ⟨fun _ _ => false, fun _ _ => true, fun _ _ => false⟩
    let alice : User := ⟨1, "alice@x.io", "h1"⟩
    let old_logo : Image := ⟨5, "10/old-resized.jpg", "old.png"⟩
    let proj : Project := ⟨10, some 1, "p", "d", some 5⟩
    let db : DB := ⟨[alice], [proj], [old_logo], [], []⟩
    let s3 : S3State := ⟨[("logos-bucket", "10/old.png"),
      ("resize-bucket", "10/old-resized.jpg")]⟩
    (delete_logo env f s3 db 10 alice).2.2 =
      .error (.http 500 "Failed to delete logo from S3") ∧
    (upload_logo env f s3 db 10 "new.png" 6 alice).2.2 =
      .ok ⟨6, "new.png"⟩ ∧
    old_logo ∈ (upload_logo env f s3 db 10 "new.png" 6 alice).2.1.images ∧
    Image.mk 6 "10/new-resized.jpg" "new.png" ∈
      (upload_logo env f s3 db 10 "new.png" 6 alice).2.1.images := by
  intro env f alice old_logo proj db s3
  have h := upload_logo_swallows_delete_failure env f s3 db 10 "new.png" 6
    alice proj old_logo (.http 500 "Failed to delete logo from S3")
    (by decide) (by decide) (by decide) (by decide) (by decide)
  exact ⟨by decide, h.1, h.2.1, h.2.2⟩

/-- `TokenSchema` from `app/schemas/token.py`: the login response. -/
structure TokenSchema where
  access_token : EncodedJwt
deriving DecidableEq, Repr

/-- `login_user(db, form_data)` from `app/crud/user.py`: looks the user
up by the submitted username (the email), raises
`HTTPException(400, "Incorrect email or password")` when the user is
missing **or** the password fails bcrypt verification (one shared branch,
one shared message), and otherwise returns an access token for the
user's email.  `verify` is the bcrypt `verify_password` oracle. -/
def login_user (verify : String → String → Bool)
    (jwt_secret_key : Option String) (now : Nat) (db : DB)
    (username password : String) : Except CrudError TokenSchema :=
  match db.findUserByEmail username with
  | none => .error (.http 400 "Incorrect email or password")
  | some user =>
    if !(verify password user.hashed_password) then
      .error (.http 400 "Incorrect email or password")
    else
      .ok ⟨create_access_token jwt_secret_key now user.email⟩

/-- C8: login fails with the same 400 response both when no user carries
the submitted email and when the password fails verification — the two
causes are indistinguishable — and it returns a token keyed by the
user's email exactly when the user exists and the password verifies. -/
theorem login_user_spec (verify : String → String → Bool)
    (key : Option String) (now : Nat) (db : DB)
    (username password : String) :
    (db.findUserByEmail username = none →
      login_user verify key now db username password =
        .error (.http 400 "Incorrect email or password")) ∧
    (∀ u, db.findUserByEmail username = some u →
      verify password u.hashed_password = false →
      login_user verify key now db username password =
        .error (.http 400 "Incorrect email or password")) ∧
    (∀ (db₂ : DB) (un₂ pw₂ : String) (u₂ : User),
      db.findUserByEmail username = none →
      db₂.findUserByEmail un₂ = some u₂ →
      verify pw₂ u₂.hashed_password = false →
      login_user verify key now db username password =
        login_user verify key now db₂ un₂ pw₂) ∧
    (∀ u, db.findUserByEmail username = some u →
      verify password u.hashed_password = true →
      login_user verify key now db username password =
        .ok ⟨create_access_token key now u.email⟩) ∧
    (∀ t, login_user verify key now db username password = .ok t →
      ∃ u, db.findUserByEmail username = some u ∧
        verify password u.hashed_password = true ∧
        t.access_token.sub = u.email) := by
  refine ⟨fun hnone => ?_, fun u hu hbad => ?_,
    fun db₂ un₂ pw₂ u₂ hnone hu₂ hbad₂ => ?_, fun u hu hgood => ?_,
    fun t ht => ?_⟩
  · simp [login_user, hnone]
  · simp [login_user, hu, hbad]
  · simp [login_user, hnone, hu₂, hbad₂]
  · simp [login_user, hu, hgood]
  · unfold login_user at ht
    cases hu : db.findUserByEmail username with
    | none => simp [hu] at ht
    | some u =>
      simp only [hu] at ht
      cases hv : verify password u.hashed_password with
      | false => simp [hv] at ht
      | true =>
        simp only [hv] at ht
        simp at ht
        refine ⟨u, rfl, hv, ?_⟩
        rw [← ht]
        simp [create_access_token]

/-- Witness for C8: with a concrete database and a string-equality
verifier, a wrong password and an unknown email yield the identical 400
response, and the right password yields a token whose subject is the
stored email. -/
theorem login_user_spec_witness :
    let verify : String → String → Bool := fun pw h => pw == h
    let alice : User := ⟨1, "alice@x.io", "pw1"⟩
    let db : DB := ⟨[alice], [], [], [], []⟩
    login_user verify (some "secret") 0 db "nobody@x.io" "pw1" =
      .error (.http 400 "Incorrect email or password") ∧
    login_user verify (some "secret") 0 db "alice@x.io" "wrong" =
      .error (.http 400 "Incorrect email or password") ∧
    login_user verify (some "secret") 0 db "nobody@x.io" "pw1" =
      login_user verify (some "secret") 0 db "alice@x.io" "wrong" ∧
    login_user verify (some "secret") 0 db "alice@x.io" "pw1" =
      .ok ⟨create_access_token (some "secret") 0 "alice@x.io"⟩ := by
  intro verify alice db
  have h := login_user_spec verify (some "secret") 0 db "nobody@x.io" "pw1"
  have h₁ := h.1 (by decide)
  have h₂ := (login_user_spec verify (some "secret") 0 db "alice@x.io"
    "wrong").2.1 alice (by decide) (by decide)
  have h₃ := h.2.2.1 db "alice@x.io" "wrong" alice (by decide) (by decide)
    (by decide)
  have h₄ := (login_user_spec verify (some "secret") 0 db "alice@x.io"
    "pw1").2.2.2.1 alice (by decide) (by decide)
  exact ⟨h₁, h₂, h₃, h₄⟩

/-- Python `s.startswith(pre)`. -/
def pyStartsWith (s pre : String) : Bool :=
  pre.data.isPrefixOf s.data

/-- Python `s.split(" ")[1]`: the text between the first space and the
following space (empty when nothing follows the first space).  The
middleware evaluates it only after `startswith("Bearer ")` has
guaranteed a space. -/
def secondSpaceField (s : String) : String :=
  ⟨((s.data.dropWhile (fun c => c != ' ')).drop 1).takeWhile
    (fun c => c != ' ')⟩

/-- The `protected_routes` list passed to `app.add_middleware` in
`app/main.py`. -/
def protected_routes : List String :=
  ["/api/v1/projects/", "/api/v1/project/", "/api/v1/document/"]

/-- An incoming HTTP request as the middleware sees it: the URL path and
the optional `Authorization` header. -/
structure MwRequest where
  path : String
  authorization : Option String
deriving DecidableEq, Repr

/-- Outcome of `JWTAuthMiddleware.dispatch`: forwarded without any token
check, rejected with a status and JSON content, or forwarded with the
decoded payload attached to `request.state.user`. -/
inductive MwOutcome (α : Type) where
  | forward_unchecked
  | rejected (status : Nat) (content : String)
  | forward_authenticated (payload : α)
deriving DecidableEq, Repr

/-- `JWTAuthMiddleware.dispatch` from `app/middleware/auth.py`: when the
request path starts with any protected route it requires an
`Authorization` header that is non-empty and starts with `"Bearer "`
(401 otherwise), then decodes `split(" ")[1]` with the configured secret
and algorithm (`decode` is the `jose.jwt.decode` oracle, `none` meaning
`JWTError`), rejecting with 401 on failure; any other path goes straight
to `call_next` with no verification at all. -/
def dispatch {α : Type} (decode : String → Option α) (req : MwRequest) :
    MwOutcome α :=
  if protected_routes.any (fun route => pyStartsWith req.path route) then
    match req.authorization with
    | none => .rejected 401 "Missing or invalid Authorization header"
    | some authorization =>
      if authorization == "" || !(pyStartsWith authorization "Bearer ") then
        .rejected 401 "Missing or invalid Authorization header"
      else
        match decode (secondSpaceField authorization) with
        | some payload => .forward_authenticated payload
        | none => .rejected 401 "Invalid token"
  else
    .forward_unchecked

/-- C10: the middleware gates exactly the requests whose path starts with
a configured prefix — on any other path, in particular the exact path
`/api/v1/projects` with no trailing slash, it performs no bearer-token
verification and forwards the request unauthenticated whatever the
`Authorization` header holds. -/
theorem dispatch_gates_only_prefixed_paths {α : Type}
    (decode : String → Option α) :
    (∀ req : MwRequest,
      protected_routes.any (fun route => pyStartsWith req.path route) =
        false →
      dispatch decode req = .forward_unchecked) ∧
    (∀ req : MwRequest,
      protected_routes.any (fun route => pyStartsWith req.path route) =
        true →
      dispatch decode req ≠ .forward_unchecked) ∧
    (∀ auth : Option String,
      dispatch decode ⟨"/api/v1/projects", auth⟩ = .forward_unchecked) := by
  refine ⟨fun req h => ?_, fun req h => ?_, fun auth => ?_⟩
  · simp [dispatch, h]
  · unfold dispatch
    rw [h]
    simp only [if_true]
    cases req.authorization with
    | none => simp
    | some authorization =>
      by_cases hb : (authorization == "" ||
          !(pyStartsWith authorization "Bearer ")) = true
      · simp [hb]
      · simp only [Bool.not_eq_true] at hb
        simp only [hb]
        cases decode (secondSpaceField authorization) <;> simp
  · have hno : protected_routes.any
        (fun route => pyStartsWith "/api/v1/projects" route) = false := by
      decide
    simp [dispatch, hno]

/-- Witness for C10: with a decoder that accepts nothing, the bare path
`/api/v1/projects` is forwarded unchecked even without any header, while
`/api/v1/projects/` and `/api/v1/project/1` are gated (rejected here). -/
theorem dispatch_gates_only_prefixed_paths_witness :
    let decode : String → Option Nat := fun _ => none
    dispatch decode ⟨"/api/v1/projects", none⟩ =
      MwOutcome.forward_unchecked ∧
    dispatch decode ⟨"/api/v1/projects", some "Bearer tok"⟩ =
      MwOutcome.forward_unchecked ∧
    dispatch decode ⟨"/api/v1/projects/", none⟩ ≠
      MwOutcome.forward_unchecked ∧
    dispatch decode ⟨"/api/v1/project/1", none⟩ ≠
      MwOutcome.forward_unchecked := by
  intro decode
  have h := dispatch_gates_only_prefixed_paths decode
  exact ⟨h.2.2 none, h.2.2 (some "Bearer tok"),
    h.2.1 ⟨"/api/v1/projects/", none⟩ (by decide),
    h.2.1 ⟨"/api/v1/project/1", none⟩ (by decide)⟩

end App
